import Mathlib

/-!
# Verification of the chrono-lab load generator (`src/app/loadgen.py`)

Shallow embedding of the statistics and control flow of `loadgen.py`:
the request executor `do_request`, the per-outcome folds of the harvest
loop and the drain loop, the per-second submission/harvest/drain step
relation of `main`, and the report derivations (success rate, p95).

Python floats are modelled as exact rationals, `collections.Counter`s as
multisets, and the thread pool as a nondeterministic trace of submit /
harvest / drain events (completion order is arbitrary, which the trace
quantification captures).
-/

namespace Loadgen

/-- Run mode, from the `--mode {get|chat}` CLI choice. -/
inductive Mode where
  | get
  | chat
deriving DecidableEq, Repr

/-- Result of calling `.json()` on a response body: either it decodes, or it
raises a decode exception whose `str` is `msg`. -/
inductive JsonResult where
  | ok
  | decodeError (msg : String)
deriving DecidableEq, Repr

/-- An HTTP response as the harvesting code observes it: its status code and
the result of calling `.json()` on it. -/
structure Response where
  status_code : Nat
  jsonBody : JsonResult
deriving DecidableEq, Repr

/-- What the network did for one request: either a response was received, or
`session.request` raised an exception whose `str` is the given message. -/
inductive NetResult where
  | response (resp : Response)
  | exn (msg : String)
deriving DecidableEq, Repr

/-- The tuple returned by `do_request`:
`(ok, status_code, latency, err, resp)` at `loadgen.py` lines 48 and 51. -/
structure Outcome where
  success : Bool
  status_code : Option Nat
  latency : Option ℚ
  error_kind : Option String
  resp : Option Response
deriving DecidableEq, Repr

/-- `do_request` (loadgen.py lines 42-51): a received response gives
`(True, resp.status_code, latency, None, resp)`; any exception gives
`(False, None, latency, str(e), None)`. The wall-clock latency is an
input of the model. -/
def do_request (net : NetResult) (lat : ℚ) : Outcome :=
  match net with
  | NetResult.response resp =>
      { success := true, status_code := some resp.status_code,
        latency := some lat, error_kind := none, resp := some resp }
  | NetResult.exn msg =>
      { success := false, status_code := none,
        latency := some lat, error_kind := some msg, resp := none }

/-- The mutable counters of `main` (loadgen.py lines 78-83): `attempts`,
`successes`, `failures`, `status_counts` (a `Counter`, modelled as a
multiset of the keys counted), `latencies`, and `error_samples`. -/
structure RunStats where
  attempts : Nat
  successes : Nat
  failures : Nat
  status_counts : Multiset (Option Nat)
  latencies : List ℚ
  error_samples : Multiset String
deriving DecidableEq

/-- The initial statistics state (loadgen.py lines 78-83). -/
def initStats : RunStats :=
  { attempts := 0, successes := 0, failures := 0,
    status_counts := 0, latencies := [], error_samples := 0 }

/-- The error-histogram key `err.split(":")[0][:60]` used at
loadgen.py lines 161, 165, 185, 189. -/
def truncKey (err : String) : String :=
  (List.headD (err.splitOn ":") "").take 60

/-- One fold of the harvest loop (loadgen.py lines 146-166) on a completed
result `r`. On success: increment `successes`, count the status code,
append the latency when present; then, in chat mode on a 200, call
`resp.json()` — a decode exception lands in the `except` block, which
increments `failures` and counts the truncated error key. On failure:
increment `failures` and, when the error string is non-empty, count its
truncated key. -/
def foldHarvest (mode : Mode) (s : RunStats) (r : Outcome) : RunStats :=
  if r.success then
    let s1 : RunStats :=
      { s with
        successes := s.successes + 1,
        status_counts := Multiset.cons r.status_code s.status_counts,
        latencies :=
          match r.latency with
          | some lat => s.latencies ++ [lat]
          | none => s.latencies }
    if mode = Mode.chat ∧ r.status_code = some 200 then
      match r.resp with
      | some resp =>
          match resp.jsonBody with
          | JsonResult.ok => s1
          | JsonResult.decodeError msg =>
              { s1 with
                failures := s1.failures + 1,
                error_samples := Multiset.cons (truncKey msg) s1.error_samples }
      | none => s1
    else s1
  else
    { s with
      failures := s.failures + 1,
      error_samples :=
        match r.error_kind with
        | some err =>
            if err = "" then s.error_samples
            else Multiset.cons (truncKey err) s.error_samples
        | none => s.error_samples }

/-- One fold of the drain loop (loadgen.py lines 174-190) on a completed
result `r`: identical to the harvest fold except that the response object
is discarded (`_`), so no JSON sanity check is performed. -/
def foldDrain (s : RunStats) (r : Outcome) : RunStats :=
  if r.success then
    { s with
      successes := s.successes + 1,
      status_counts := Multiset.cons r.status_code s.status_counts,
      latencies :=
        match r.latency with
        | some lat => s.latencies ++ [lat]
        | none => s.latencies }
  else
    { s with
      failures := s.failures + 1,
      error_samples :=
        match r.error_kind with
        | some err =>
            if err = "" then s.error_samples
            else Multiset.cons (truncKey err) s.error_samples
        | none => s.error_samples }

/-- One observable event of `main`'s loop: a submission (`submit_one`,
loadgen.py lines 106-126, which increments `attempts` and adds a future
to `inflight`), the harvesting of one completed future during the
per-second loop, or the harvesting of one completed future during the
final drain. The network outcome and measured latency of a completion
are data of the event: the pool completes futures in arbitrary order. -/
inductive Event where
  | submit
  | harvest (net : NetResult) (lat : ℚ)
  | drain (net : NetResult) (lat : ℚ)
deriving DecidableEq

/-- The loop state: the statistics counters plus the number of futures in
the `inflight` set. -/
structure LoopState where
  stats : RunStats
  pending : Nat
deriving DecidableEq

/-- The state at entry of the `with ThreadPoolExecutor` block
(loadgen.py lines 129-130): fresh counters, empty `inflight`. -/
def initState : LoopState :=
  { stats := initStats, pending := 0 }

/-- Effect of one event on the loop state. A submission increments
`attempts` and grows `inflight`; a harvested or drained completion runs
`do_request`'s result through the corresponding fold and shrinks
`inflight`. -/
def step (mode : Mode) (st : LoopState) : Event → LoopState
  | Event.submit =>
      { stats := { st.stats with attempts := st.stats.attempts + 1 },
        pending := st.pending + 1 }
  | Event.harvest net lat =>
      { stats := foldHarvest mode st.stats (do_request net lat),
        pending := st.pending - 1 }
  | Event.drain net lat =>
      { stats := foldDrain st.stats (do_request net lat),
        pending := st.pending - 1 }

/-- Run a trace of events from a state. -/
def run (mode : Mode) (st : LoopState) (tr : List Event) : LoopState :=
  List.foldl (step mode) st tr

/-- A trace is well-formed from `p` outstanding futures when every harvest or
drain event finds at least one future in flight (the pool only completes
futures that were submitted). -/
def wfB : Nat → List Event → Bool
  | _, [] => true
  | p, Event.submit :: es => wfB (p + 1) es
  | p, Event.harvest _ _ :: es => (p != 0) && wfB (p - 1) es
  | p, Event.drain _ _ :: es => (p != 0) && wfB (p - 1) es

/-- Whether an event is the harvest of a chat-mode 200 response whose body
fails JSON decoding — the case in which the harvest fold increments both
`successes` and `failures` for the same outcome. -/
def decodeDouble (mode : Mode) : Event → Bool
  | Event.harvest (NetResult.response resp) _ =>
      decide (mode = Mode.chat) && (resp.status_code == 200) &&
        (match resp.jsonBody with
         | JsonResult.ok => false
         | JsonResult.decodeError _ => true)
  | _ => false

/-- Whether an event is a submission or a completion that received an
HTTP 500 response (the scenario of a target answering 500 to every
request, with no transport failures). -/
def all500B : Event → Bool
  | Event.submit => true
  | Event.harvest (NetResult.response resp) _ => resp.status_code == 500
  | Event.harvest (NetResult.exn _) _ => false
  | Event.drain (NetResult.response resp) _ => resp.status_code == 500
  | Event.drain (NetResult.exn _) _ => false

/-- `success_rate` (loadgen.py lines 195-196):
`successes / total * 100.0` when `total > 0`, else `0.0`. -/
def success_rate (s : RunStats) : ℚ :=
  if 0 < s.attempts then (s.successes : ℚ) / (s.attempts : ℚ) * 100 else 0

/-- `p95_lat` (loadgen.py lines 198-202): `None` when no latencies were
recorded; otherwise the element at index `int(0.95 * (len - 1))` of the
ascending-sorted latency list. `int(...)` truncates the nonnegative
product `0.95 * (len - 1)`, which is the exact natural division
`19 * (len - 1) / 20`. -/
def p95 (latencies : List ℚ) : Option ℚ :=
  if latencies.isEmpty then none
  else
    (List.insertionSort (fun a b : ℚ => a ≤ b) latencies).get?
      (19 * (latencies.length - 1) / 20)

/-- The state from which the final report is produced when the operator
interrupts the run after the events `tr`: the `except KeyboardInterrupt`
handler (loadgen.py lines 192-193) leaves the pool block without ever
running the drain loop, so the report reads exactly the statistics folded
so far, and the `pending` futures' outcomes are never folded. -/
def reportAfterInterrupt (mode : Mode) (tr : List Event) : LoopState :=
  run mode initState tr

/-- Model of `random.randint(lo, hi)` (uniform over the inclusive range
`[lo, hi]`): the draw is determined by a seed `r`; for `lo ≤ hi` the
value `lo + r % (hi - lo + 1)` ranges over `[lo, hi]`, each value taken
by exactly one residue of `r` modulo the range size. -/
def randint (lo hi : ℤ) (r : ℕ) : ℤ :=
  lo + (r : ℤ) % (hi - lo + 1)

/-- The word-count hint drawn by the chat branch of `submit_one`
(loadgen.py line 116):
`random.randint(args.min_words, max(args.min_words, args.max_words))`. -/
def wordHint (min_words max_words : ℤ) (r : ℕ) : ℤ :=
  randint min_words (max min_words max_words) r

/-! ## Helper lemmas about single fold steps -/

theorem run_cons (mode : Mode) (st : LoopState) (e : Event) (tr : List Event) :
    run mode st (e :: tr) = run mode (step mode st e) tr := rfl

theorem foldHarvest_attempts (mode : Mode) (s : RunStats) (net : NetResult) (lat : ℚ) :
    (foldHarvest mode s (do_request net lat)).attempts = s.attempts := by
  rcases net with resp | msg
  · cases hj : resp.jsonBody <;>
      simp [foldHarvest, do_request, hj] <;>
      (try split) <;> simp
  · simp [foldHarvest, do_request]

theorem foldDrain_attempts (s : RunStats) (net : NetResult) (lat : ℚ) :
    (foldDrain s (do_request net lat)).attempts = s.attempts := by
  rcases net with resp | msg <;> simp [foldDrain, do_request]

theorem foldHarvest_len_succ (mode : Mode) (s : RunStats) (net : NetResult) (lat : ℚ) :
    (foldHarvest mode s (do_request net lat)).latencies.length + s.successes =
      s.latencies.length + (foldHarvest mode s (do_request net lat)).successes := by
  rcases net with resp | msg
  · cases hj : resp.jsonBody <;>
      simp [foldHarvest, do_request, hj] <;>
      (try split) <;> first | omega | (simp; omega)
  · simp [foldHarvest, do_request]

theorem foldDrain_len_succ (s : RunStats) (net : NetResult) (lat : ℚ) :
    (foldDrain s (do_request net lat)).latencies.length + s.successes =
      s.latencies.length + (foldDrain s (do_request net lat)).successes := by
  rcases net with resp | msg <;> simp [foldDrain, do_request] <;> omega

theorem foldHarvest_card_succ (mode : Mode) (s : RunStats) (net : NetResult) (lat : ℚ) :
    Multiset.card (foldHarvest mode s (do_request net lat)).status_counts + s.successes =
      Multiset.card s.status_counts + (foldHarvest mode s (do_request net lat)).successes := by
  rcases net with resp | msg
  · cases hj : resp.jsonBody <;>
      simp [foldHarvest, do_request, hj] <;>
      (try split) <;> first | omega | (simp; omega)
  · simp [foldHarvest, do_request]

theorem foldDrain_card_succ (s : RunStats) (net : NetResult) (lat : ℚ) :
    Multiset.card (foldDrain s (do_request net lat)).status_counts + s.successes =
      Multiset.card s.status_counts + (foldDrain s (do_request net lat)).successes := by
  rcases net with resp | msg <;> simp [foldDrain, do_request] <;> omega

theorem foldHarvest_counts (mode : Mode) (s : RunStats) (net : NetResult) (lat : ℚ) :
    (foldHarvest mode s (do_request net lat)).successes +
        (foldHarvest mode s (do_request net lat)).failures =
      s.successes + s.failures + 1 +
        (if decodeDouble mode (Event.harvest net lat) then 1 else 0) := by
  rcases net with resp | msg
  · cases hj : resp.jsonBody with
    | ok =>
        simp [foldHarvest, do_request, decodeDouble, hj]
        (try split) <;> first | omega | (simp; omega)
    | decodeError m =>
        simp [foldHarvest, do_request, decodeDouble, hj]
        split <;> rename_i h <;> simp_all <;> omega
  · simp [foldHarvest, do_request, decodeDouble]
    omega

theorem foldDrain_counts (s : RunStats) (net : NetResult) (lat : ℚ) :
    (foldDrain s (do_request net lat)).successes +
        (foldDrain s (do_request net lat)).failures =
      s.successes + s.failures + 1 := by
  rcases net with resp | msg <;> simp [foldDrain, do_request] <;> omega

/-! ## Helper lemmas about whole traces -/

theorem step_len_succ (mode : Mode) (st : LoopState) (e : Event) :
    (step mode st e).stats.latencies.length + st.stats.successes =
      st.stats.latencies.length + (step mode st e).stats.successes := by
  cases e with
  | submit => rfl
  | harvest net lat => exact foldHarvest_len_succ mode st.stats net lat
  | drain net lat => exact foldDrain_len_succ st.stats net lat

theorem run_len_succ (mode : Mode) (tr : List Event) (st : LoopState) :
    (run mode st tr).stats.latencies.length + st.stats.successes =
      st.stats.latencies.length + (run mode st tr).stats.successes := by
  induction tr generalizing st with
  | nil => rfl
  | cons e es ih =>
      have h1 := step_len_succ mode st e
      have h2 := ih (step mode st e)
      rw [run_cons]
      omega

theorem step_card_succ (mode : Mode) (st : LoopState) (e : Event) :
    Multiset.card (step mode st e).stats.status_counts + st.stats.successes =
      Multiset.card st.stats.status_counts + (step mode st e).stats.successes := by
  cases e with
  | submit => rfl
  | harvest net lat => exact foldHarvest_card_succ mode st.stats net lat
  | drain net lat => exact foldDrain_card_succ st.stats net lat

theorem run_card_succ (mode : Mode) (tr : List Event) (st : LoopState) :
    Multiset.card (run mode st tr).stats.status_counts + st.stats.successes =
      Multiset.card st.stats.status_counts + (run mode st tr).stats.successes := by
  induction tr generalizing st with
  | nil => rfl
  | cons e es ih =>
      have h1 := step_card_succ mode st e
      have h2 := ih (step mode st e)
      rw [run_cons]
      omega

theorem step_balance (mode : Mode) (st : LoopState) (e : Event)
    (hp : e = Event.submit ∨ 0 < st.pending) :
    (step mode st e).stats.successes + (step mode st e).stats.failures +
        (step mode st e).pending + st.stats.attempts =
      st.stats.successes + st.stats.failures + st.pending +
        (step mode st e).stats.attempts +
        (if decodeDouble mode e then 1 else 0) := by
  cases e with
  | submit => simp [step, decodeDouble]; omega
  | harvest net lat =>
      have hc := foldHarvest_counts mode st.stats net lat
      have ha := foldHarvest_attempts mode st.stats net lat
      have hpend : 0 < st.pending := by
        rcases hp with h | h
        · exact absurd h (by simp)
        · exact h
      simp only [step]
      omega
  | drain net lat =>
      have hc := foldDrain_counts st.stats net lat
      have ha := foldDrain_attempts st.stats net lat
      have hpend : 0 < st.pending := by
        rcases hp with h | h
        · exact absurd h (by simp)
        · exact h
      simp [step, decodeDouble]
      omega

theorem run_balance (mode : Mode) (tr : List Event) (st : LoopState)
    (h : wfB st.pending tr = true) :
    (run mode st tr).stats.successes + (run mode st tr).stats.failures +
        (run mode st tr).pending + st.stats.attempts =
      st.stats.successes + st.stats.failures + st.pending +
        (run mode st tr).stats.attempts + List.countP (decodeDouble mode) tr := by
  induction tr generalizing st with
  | nil => simp [run]
  | cons e es ih =>
      have hwf : wfB (step mode st e).pending es = true ∧ (e = Event.submit ∨ 0 < st.pending) := by
        cases e with
        | submit => exact ⟨h, Or.inl rfl⟩
        | harvest net lat =>
            simp only [wfB, Bool.and_eq_true, bne_iff_ne, ne_eq] at h
            exact ⟨h.2, Or.inr (Nat.pos_of_ne_zero h.1)⟩
        | drain net lat =>
            simp only [wfB, Bool.and_eq_true, bne_iff_ne, ne_eq] at h
            exact ⟨h.2, Or.inr (Nat.pos_of_ne_zero h.1)⟩
      have h1 := step_balance mode st e hwf.2
      have h2 := ih (step mode st e) hwf.1
      rw [run_cons]
      rw [List.countP_cons]
      split at h1 <;> rename_i hd <;> simp [hd] <;> omega

/-! ## Helper lemmas for the all-500 scenario -/

theorem decodeDouble_of_all500 (mode : Mode) (e : Event) (h : all500B e = true) :
    decodeDouble mode e = false := by
  cases e with
  | submit => rfl
  | harvest net lat =>
      cases net with
      | response resp =>
          simp only [all500B, beq_iff_eq] at h
          cases hj : resp.jsonBody <;> simp [decodeDouble, h, hj]
      | exn msg => rfl
  | drain net lat => rfl

theorem foldHarvest_500 (mode : Mode) (s : RunStats) (resp : Response) (lat : ℚ)
    (h : resp.status_code = 500) :
    (foldHarvest mode s (do_request (NetResult.response resp) lat)).failures = s.failures ∧
      Multiset.count (some 500)
          (foldHarvest mode s (do_request (NetResult.response resp) lat)).status_counts =
        Multiset.count (some 500) s.status_counts + 1 ∧
      (foldHarvest mode s (do_request (NetResult.response resp) lat)).successes =
        s.successes + 1 := by
  simp [foldHarvest, do_request, h]

theorem foldDrain_500 (s : RunStats) (resp : Response) (lat : ℚ)
    (h : resp.status_code = 500) :
    (foldDrain s (do_request (NetResult.response resp) lat)).failures = s.failures ∧
      Multiset.count (some 500)
          (foldDrain s (do_request (NetResult.response resp) lat)).status_counts =
        Multiset.count (some 500) s.status_counts + 1 ∧
      (foldDrain s (do_request (NetResult.response resp) lat)).successes =
        s.successes + 1 := by
  simp [foldDrain, do_request, h]

theorem run_all500 (mode : Mode) (tr : List Event) (st : LoopState)
    (h : tr.all all500B = true) :
    (run mode st tr).stats.failures = st.stats.failures ∧
      Multiset.count (some 500) (run mode st tr).stats.status_counts +
          st.stats.successes =
        Multiset.count (some 500) st.stats.status_counts +
          (run mode st tr).stats.successes := by
  induction tr generalizing st with
  | nil => exact ⟨rfl, rfl⟩
  | cons e es ih =>
      rw [List.all_cons, Bool.and_eq_true] at h
      have hstep : (step mode st e).stats.failures = st.stats.failures ∧
          Multiset.count (some 500) (step mode st e).stats.status_counts +
              st.stats.successes =
            Multiset.count (some 500) st.stats.status_counts +
              (step mode st e).stats.successes := by
        cases e with
        | submit => exact ⟨rfl, rfl⟩
        | harvest net lat =>
            cases net with
            | response resp =>
                have h5 : resp.status_code = 500 := by
                  simpa [all500B] using h.1
                have := foldHarvest_500 mode st.stats resp lat h5
                exact ⟨this.1, by simp only [step]; omega⟩
            | exn msg => simp [all500B] at h
        | drain net lat =>
            cases net with
            | response resp =>
                have h5 : resp.status_code = 500 := by
                  simpa [all500B] using h.1
                have := foldDrain_500 st.stats resp lat h5
                exact ⟨this.1, by simp only [step]; omega⟩
            | exn msg => simp [all500B] at h
      have h2 := ih (step mode st e) h.2
      rw [run_cons]
      exact ⟨by rw [h2.1, hstep.1], by omega⟩

theorem countP_decodeDouble_all500 (mode : Mode) (tr : List Event)
    (h : tr.all all500B = true) :
    List.countP (decodeDouble mode) tr = 0 := by
  rw [List.countP_eq_zero]
  intro e he
  have := List.all_eq_true.mp h e he
  simp [decodeDouble_of_all500 mode e this]

/-! ## Claim theorems -/

/-- Claim C9: at every point of every run, the length of the recorded
latency sequence equals `successes`: every outcome folded as a success
appends exactly one latency (`do_request` always returns a measured
latency, so the `if lat is not None` guard always passes), and failure
folds never append one. -/
theorem latencies_length_eq_successes (mode : Mode) (tr : List Event) :
    (run mode initState tr).stats.latencies.length =
      (run mode initState tr).stats.successes := by
  have h := run_len_succ mode tr initState
  have h0 : initState.stats.latencies.length = 0 := rfl
  have h1 : initState.stats.successes = 0 := rfl
  omega

/-- Claim C10: at every point of every run, the total count of the
status-code histogram equals `successes`: exactly the folds that
increment `successes` add one histogram entry, and nothing else touches
the histogram. -/
theorem status_histogram_card_eq_successes (mode : Mode) (tr : List Event) :
    Multiset.card (run mode initState tr).stats.status_counts =
      (run mode initState tr).stats.successes := by
  have h := run_card_succ mode tr initState
  have h0 : Multiset.card initState.stats.status_counts = 0 := rfl
  have h1 : initState.stats.successes = 0 := rfl
  omega

/-- Claim C1, counterexample: the spec's invariant
`attempts == successes + failures` does not hold at every point in time —
`attempts` is incremented at submission (`submit_one`) while `successes`
and `failures` are only incremented when the outcome is folded, so after
the well-formed trace `[submit]` the counters read `attempts = 1`,
`successes + failures = 0`. -/
theorem attempts_eq_successes_add_failures_refuted :
    ¬ (∀ (mode : Mode) (tr : List Event), wfB 0 tr = true →
        (run mode initState tr).stats.attempts =
          (run mode initState tr).stats.successes +
            (run mode initState tr).stats.failures) := by
  intro h
  have h1 := h Mode.get [Event.submit] (by decide)
  simp [run, step, initState, initStats] at h1

/-- Claim C1, amended: at every point of every run,
`successes + failures + pending = attempts + d`, where `pending` counts
submitted-but-not-yet-folded requests and `d` counts the harvested
chat-mode 200 outcomes with malformed JSON bodies (each of which the
harvest loop counts both as a success and as a failure). In particular
`attempts == successes + failures` holds exactly at the quiescent points
of a run with no such malformed-JSON outcomes. -/
theorem attempts_balance_invariant (mode : Mode) (tr : List Event)
    (hwf : wfB 0 tr = true) :
    (run mode initState tr).stats.successes +
        (run mode initState tr).stats.failures +
        (run mode initState tr).pending =
      (run mode initState tr).stats.attempts +
        List.countP (decodeDouble mode) tr := by
  have h := run_balance mode tr initState hwf
  have h0 : initState.stats.successes = 0 := rfl
  have h1 : initState.stats.failures = 0 := rfl
  have h2 : initState.pending = 0 := rfl
  have h3 : initState.stats.attempts = 0 := rfl
  omega

/-- Witness for `attempts_balance_invariant` on a concrete chat-mode trace
containing one malformed-JSON 200 harvest: two submissions, one decode
double-count, one transport failure, nothing pending. -/
theorem attempts_balance_invariant_witness :
    wfB 0 [Event.submit, Event.submit,
        Event.harvest (NetResult.response ⟨200, JsonResult.decodeError "bad"⟩) 1,
        Event.harvest (NetResult.exn "boom") 2] = true ∧
      (run Mode.chat initState [Event.submit, Event.submit,
          Event.harvest (NetResult.response ⟨200, JsonResult.decodeError "bad"⟩) 1,
          Event.harvest (NetResult.exn "boom") 2]).stats.successes +
        (run Mode.chat initState [Event.submit, Event.submit,
          Event.harvest (NetResult.response ⟨200, JsonResult.decodeError "bad"⟩) 1,
          Event.harvest (NetResult.exn "boom") 2]).stats.failures +
        (run Mode.chat initState [Event.submit, Event.submit,
          Event.harvest (NetResult.response ⟨200, JsonResult.decodeError "bad"⟩) 1,
          Event.harvest (NetResult.exn "boom") 2]).pending =
      (run Mode.chat initState [Event.submit, Event.submit,
          Event.harvest (NetResult.response ⟨200, JsonResult.decodeError "bad"⟩) 1,
          Event.harvest (NetResult.exn "boom") 2]).stats.attempts +
        List.countP (decodeDouble Mode.chat)
          [Event.submit, Event.submit,
            Event.harvest (NetResult.response ⟨200, JsonResult.decodeError "bad"⟩) 1,
            Event.harvest (NetResult.exn "boom") 2] :=
  ⟨by decide, attempts_balance_invariant Mode.chat _ (by decide)⟩

/-- Claim C3, counterexample: an operator interrupt during Running does not
lead to the pending outcomes being harvested — the `except
KeyboardInterrupt` handler skips the drain loop, so the claim that the
report state always has zero pending outcomes is false: interrupting
after `[submit, submit, harvest]` leaves one pending outcome unfolded at
report time. -/
theorem interrupt_drains_all_refuted :
    ¬ (∀ (mode : Mode) (tr : List Event), wfB 0 tr = true →
        (reportAfterInterrupt mode tr).pending = 0) := by
  intro h
  have h1 := h Mode.get
    [Event.submit, Event.submit,
      Event.harvest (NetResult.response ⟨200, JsonResult.ok⟩) 1] (by decide)
  simp [reportAfterInterrupt, run, step, initState] at h1

/-- Claim C3, amended: an interrupt during Running stops submission and
harvesting immediately and the report is produced from the statistics
folded so far; the `N` pending outcomes are never folded, so (in the
absence of malformed-JSON double counts) the report accounts for exactly
`attempts - N` outcomes: `successes + failures + N = attempts`. -/
theorem interrupt_report_partial (mode : Mode) (tr : List Event)
    (hwf : wfB 0 tr = true)
    (hnd : List.countP (decodeDouble mode) tr = 0) :
    (reportAfterInterrupt mode tr).stats.successes +
        (reportAfterInterrupt mode tr).stats.failures +
        (reportAfterInterrupt mode tr).pending =
      (reportAfterInterrupt mode tr).stats.attempts := by
  have h := run_balance mode tr initState hwf
  have h0 : initState.stats.successes = 0 := rfl
  have h1 : initState.stats.failures = 0 := rfl
  have h2 : initState.pending = 0 := rfl
  have h3 : initState.stats.attempts = 0 := rfl
  have h4 : reportAfterInterrupt mode tr = run mode initState tr := rfl
  rw [h4]
  omega

/-- Witness for `interrupt_report_partial`: interrupting after two
submissions and one harvested transport failure leaves one pending
request; the report then balances `0 + 1 + 1 = 2`. -/
theorem interrupt_report_partial_witness :
    (wfB 0 [Event.submit, Event.harvest (NetResult.exn "timed out") 1,
        Event.submit] = true ∧
      List.countP (decodeDouble Mode.get)
        [Event.submit, Event.harvest (NetResult.exn "timed out") 1,
          Event.submit] = 0) ∧
      (reportAfterInterrupt Mode.get
            [Event.submit, Event.harvest (NetResult.exn "timed out") 1,
              Event.submit]).stats.successes +
          (reportAfterInterrupt Mode.get
            [Event.submit, Event.harvest (NetResult.exn "timed out") 1,
              Event.submit]).stats.failures +
          (reportAfterInterrupt Mode.get
            [Event.submit, Event.harvest (NetResult.exn "timed out") 1,
              Event.submit]).pending =
        (reportAfterInterrupt Mode.get
            [Event.submit, Event.harvest (NetResult.exn "timed out") 1,
              Event.submit]).stats.attempts :=
  ⟨⟨by decide, by decide⟩,
    interrupt_report_partial Mode.get _ (by decide) (by decide)⟩

/-- Claim C7: in a run whose every completion is an HTTP 500 response (no
transport failures), once every submitted request has been folded
(`pending = 0`), `failures = 0` and the histogram count of status 500
equals `attempts` — any received status code counts as transport
success. -/
theorem all500_failures_zero_hist500_attempts (mode : Mode) (tr : List Event)
    (hwf : wfB 0 tr = true) (h500 : tr.all all500B = true)
    (hdone : (run mode initState tr).pending = 0) :
    (run mode initState tr).stats.failures = 0 ∧
      Multiset.count (some 500) (run mode initState tr).stats.status_counts =
        (run mode initState tr).stats.attempts := by
  have hb := run_balance mode tr initState hwf
  have ha := run_all500 mode tr initState h500
  have hc := countP_decodeDouble_all500 mode tr h500
  have h0 : initState.stats.successes = 0 := rfl
  have h1 : initState.stats.failures = 0 := rfl
  have h2 : initState.pending = 0 := rfl
  have h3 : initState.stats.attempts = 0 := rfl
  have h4 : Multiset.count (some 500) initState.stats.status_counts = 0 := rfl
  omega

/-- Witness for `all500_failures_zero_hist500_attempts`: two requests, both
answered 500 (one harvested in-second, one drained), fully folded. -/
theorem all500_failures_zero_hist500_attempts_witness :
    (wfB 0 [Event.submit, Event.harvest (NetResult.response ⟨500, JsonResult.ok⟩) 1,
          Event.submit, Event.drain (NetResult.response ⟨500, JsonResult.ok⟩) 2] = true ∧
        List.all [Event.submit, Event.harvest (NetResult.response ⟨500, JsonResult.ok⟩) 1,
          Event.submit, Event.drain (NetResult.response ⟨500, JsonResult.ok⟩) 2] all500B = true ∧
        (run Mode.get initState
            [Event.submit, Event.harvest (NetResult.response ⟨500, JsonResult.ok⟩) 1,
              Event.submit, Event.drain (NetResult.response ⟨500, JsonResult.ok⟩) 2]).pending = 0) ∧
      (run Mode.get initState
          [Event.submit, Event.harvest (NetResult.response ⟨500, JsonResult.ok⟩) 1,
            Event.submit, Event.drain (NetResult.response ⟨500, JsonResult.ok⟩) 2]).stats.failures = 0 ∧
        Multiset.count (some 500)
            (run Mode.get initState
              [Event.submit, Event.harvest (NetResult.response ⟨500, JsonResult.ok⟩) 1,
                Event.submit, Event.drain (NetResult.response ⟨500, JsonResult.ok⟩) 2]).stats.status_counts =
          (run Mode.get initState
              [Event.submit, Event.harvest (NetResult.response ⟨500, JsonResult.ok⟩) 1,
                Event.submit, Event.drain (NetResult.response ⟨500, JsonResult.ok⟩) 2]).stats.attempts :=
  ⟨⟨by decide, by decide, by decide⟩,
    all500_failures_zero_hist500_attempts Mode.get _ (by decide) (by decide) (by decide)⟩

/-- Claim C2: `do_request` classifies every request: a raised exception
yields `success = false`, `status_code = None` and a present
(`isSome`) error kind (the exception's `str`); any received response —
whatever its status code — yields `success = true` carrying the actual
status code. Hence for every outcome, `success = true` iff a status code
is present. -/
theorem do_request_classification :
    (∀ (msg : String) (lat : ℚ),
        (do_request (NetResult.exn msg) lat).success = false ∧
          (do_request (NetResult.exn msg) lat).status_code = none ∧
          (do_request (NetResult.exn msg) lat).error_kind.isSome = true) ∧
      (∀ (resp : Response) (lat : ℚ),
          (do_request (NetResult.response resp) lat).success = true ∧
            (do_request (NetResult.response resp) lat).status_code =
              some resp.status_code) ∧
      (∀ (net : NetResult) (lat : ℚ),
          ((do_request net lat).success = true →
              (do_request net lat).status_code.isSome = true) ∧
            ((do_request net lat).success = false →
              (do_request net lat).status_code = none)) := by
  refine ⟨fun msg lat => ⟨rfl, rfl, rfl⟩, fun resp lat => ⟨rfl, rfl⟩,
    fun net lat => ?_⟩
  cases net <;> simp [do_request]

/-- Witness for `do_request_classification` at a timeout exception and a
502 response. -/
theorem do_request_classification_witness :
    ((do_request (NetResult.exn "HTTPSConnectionPool: Read timed out") 1).success = false ∧
        (do_request (NetResult.exn "HTTPSConnectionPool: Read timed out") 1).status_code = none ∧
        (do_request (NetResult.exn "HTTPSConnectionPool: Read timed out") 1).error_kind.isSome = true) ∧
      ((do_request (NetResult.response ⟨502, JsonResult.ok⟩) 2).success = true ∧
        (do_request (NetResult.response ⟨502, JsonResult.ok⟩) 2).status_code = some 502) ∧
      (do_request (NetResult.response ⟨502, JsonResult.ok⟩) 2).status_code.isSome = true :=
  ⟨do_request_classification.1 "HTTPSConnectionPool: Read timed out" 1,
    do_request_classification.2.1 ⟨502, JsonResult.ok⟩ 2,
    (do_request_classification.2.2 (NetResult.response ⟨502, JsonResult.ok⟩) 2).1
      (by decide)⟩

/-- Claim C4: a chat-mode 200 outcome whose body fails JSON decoding is
handled entirely inside the harvest fold (the fold is a total function,
so no exception escapes the loop): the `except` block increments
`failures` and counts the truncated decode-error key in the error
histogram. (The same fold also counted the outcome as a success before
`resp.json()` raised — see the amendment of claim C1.) -/
theorem chat_decode_error_folded_failure (s : RunStats) (msg : String) (lat : ℚ) :
    (foldHarvest Mode.chat s
          (do_request (NetResult.response ⟨200, JsonResult.decodeError msg⟩) lat)).failures =
        s.failures + 1 ∧
      Multiset.count (truncKey msg)
          (foldHarvest Mode.chat s
            (do_request (NetResult.response ⟨200, JsonResult.decodeError msg⟩) lat)).error_samples =
        Multiset.count (truncKey msg) s.error_samples + 1 := by
  simp [foldHarvest, do_request]

/-- Claim C6: the reported success rate is `successes / attempts * 100`
when `attempts > 0` and `0` when `attempts = 0` — the zero-attempts
guard avoids the division. -/
theorem success_rate_division_guard (s : RunStats) :
    (0 < s.attempts →
        success_rate s = (s.successes : ℚ) / (s.attempts : ℚ) * 100) ∧
      (s.attempts = 0 → success_rate s = 0) := by
  constructor
  · intro h
    simp [success_rate, h]
  · intro h
    simp [success_rate, h]

/-- Witness for `success_rate_division_guard`: 3 successes out of 4
attempts give rate `3/4*100`, and zero attempts give rate `0`. -/
theorem success_rate_division_guard_witness :
    (0 < (4 : ℕ) ∧
        success_rate { initStats with attempts := 4, successes := 3 } =
          ((3 : ℕ) : ℚ) / ((4 : ℕ) : ℚ) * 100) ∧
      success_rate initStats = 0 :=
  ⟨⟨by decide,
      (success_rate_division_guard
        { initStats with attempts := 4, successes := 3 }).1 (by decide)⟩,
    (success_rate_division_guard initStats).2 rfl⟩

/-- Claim C8: the chat-mode word-count hint is drawn uniformly from the
inclusive interval `[min_words, max(min_words, max_words)]`: every draw
lies in that interval, each interval value is taken by exactly the seeds
of one residue class (the map `j ↦ min_words + j` enumerates the
interval as `j` ranges below its size), and for the inverted bounds
`min_words = 10, max_words = 5` the interval clamps to `{10}`, so the
hint is always at least `min_words`. -/
theorem wordHint_uniform_clamped :
    (∀ (mw Mw : ℤ) (r : ℕ),
        mw ≤ wordHint mw Mw r ∧ wordHint mw Mw r ≤ max mw Mw) ∧
      (∀ (mw Mw : ℤ) (j : ℕ), (j : ℤ) < max mw Mw - mw + 1 →
          wordHint mw Mw j = mw + j) ∧
      (∀ r : ℕ, wordHint 10 5 r = 10) := by
  have hpos : ∀ mw Mw : ℤ, 0 < max mw Mw - mw + 1 := by
    intro mw Mw
    have := le_max_left mw Mw
    omega
  refine ⟨fun mw Mw r => ?_, fun mw Mw j hj => ?_, fun r => ?_⟩
  · have h0 : 0 ≤ (r : ℤ) % (max mw Mw - mw + 1) :=
      Int.emod_nonneg _ (by have := hpos mw Mw; omega)
    have h1 : (r : ℤ) % (max mw Mw - mw + 1) < max mw Mw - mw + 1 :=
      Int.emod_lt_of_pos _ (hpos mw Mw)
    unfold wordHint randint
    omega
  · unfold wordHint randint
    rw [Int.emod_eq_of_lt (by positivity) hj]
  · unfold wordHint randint
    norm_num

/-- Witness for `wordHint_uniform_clamped`: seed 103 stays within
`[10, 60]`, seed 13 hits `10 + 13 = 23`, and inverted bounds always
give 10. -/
theorem wordHint_uniform_clamped_witness :
    (10 ≤ wordHint 10 60 103 ∧ wordHint 10 60 103 ≤ max 10 60) ∧
      (((13 : ℕ) : ℤ) < max 10 60 - 10 + 1 ∧ wordHint 10 60 13 = 10 + 13) ∧
      wordHint 10 5 7 = 10 :=
  ⟨wordHint_uniform_clamped.1 10 60 103,
    ⟨by decide, wordHint_uniform_clamped.2.1 10 60 13 (by decide)⟩,
    wordHint_uniform_clamped.2.2 7⟩

/-- Claim C5: for a non-empty latency list the reported p95 is the element
of the ascending-sorted list at nearest-rank index
`floor(0.95 * (n - 1))`; for `[10, 20, 30, 40, 50]` that index is 3 and
the p95 is 40; for an empty list the p95 is omitted. -/
theorem p95_nearest_rank :
    (∀ l : List ℚ, l ≠ [] →
        ∃ v : ℚ, p95 l = some v ∧
          (List.insertionSort (fun a b : ℚ => a ≤ b) l).get?
              ⌊(95 / 100 : ℚ) * ((l.length : ℚ) - 1)⌋₊ = some v) ∧
      p95 [10, 20, 30, 40, 50] = some 40 ∧ p95 ([] : List ℚ) = none := by
  refine ⟨fun l hl => ?_, by decide, rfl⟩
  have hn : 1 ≤ l.length := List.length_pos.mpr hl
  have hidx_eq : ⌊(95 / 100 : ℚ) * ((l.length : ℚ) - 1)⌋₊ =
      19 * (l.length - 1) / 20 := by
    have hcast : ((l.length : ℚ) - 1) = ((l.length - 1 : ℕ) : ℚ) := by
      rw [Nat.cast_sub hn, Nat.cast_one]
    rw [hcast]
    have h2 : (95 / 100 : ℚ) * ((l.length - 1 : ℕ) : ℚ) =
        ((19 * (l.length - 1) : ℕ) : ℚ) / ((20 : ℕ) : ℚ) := by
      push_cast
      ring
    rw [h2, Nat.floor_div_eq_div]
  have hlen : (List.insertionSort (fun a b : ℚ => a ≤ b) l).length = l.length :=
    List.length_insertionSort _ _
  have hlt2 : 19 * (l.length - 1) / 20 <
      (List.insertionSort (fun a b : ℚ => a ≤ b) l).length := by
    rw [hlen]
    omega
  refine ⟨(List.insertionSort (fun a b : ℚ => a ≤ b) l).get ⟨_, hlt2⟩, ?_, ?_⟩
  · unfold p95
    rw [if_neg (by simpa [List.isEmpty_iff] using hl)]
    exact List.get?_eq_get hlt2
  · rw [hidx_eq]
    exact List.get?_eq_get hlt2

/-- Witness for `p95_nearest_rank` at the five-element latency list of the
spec: index `floor(0.95 * 4) = 3` of the sorted list, value 40. -/
theorem p95_nearest_rank_witness :
    ([10, 20, 30, 40, 50] : List ℚ) ≠ [] ∧
      ∃ v : ℚ, p95 [10, 20, 30, 40, 50] = some v ∧
        (List.insertionSort (fun a b : ℚ => a ≤ b) [10, 20, 30, 40, 50]).get?
            ⌊(95 / 100 : ℚ) * ((([10, 20, 30, 40, 50] : List ℚ).length : ℚ) - 1)⌋₊ =
          some v :=
  ⟨by decide, p95_nearest_rank.1 [10, 20, 30, 40, 50] (by decide)⟩

end Loadgen
